import Mathlib

/-!
Verification of the WikiMCP `wiki_converter.py` HTML-to-Markdown converter.

Strings are modelled as `List Char` (`Str`).  The BeautifulSoup document tree
is modelled by the nested inductive `Node`: a `text` node carries the literal
string of a `NavigableString`; an `elem` node carries the tag name, the
attribute map (`class` is kept separately, as bs4 exposes it as a token list),
and the ordered children.  Every converter method of the Python class
`WikiToMarkdownConverter` is translated to a Lean function of the same name
(camel-cased, leading underscore dropped).

The mutually recursive conversion methods recurse through CSS-selected
descendants (not only direct children), so the Lean translation indexes the
whole family by a `fuel : Nat` argument that decreases at every call between
two translated methods; each theorem quantifies over the fuel or supplies one
large enough for the tree at hand, so the fuelled value coincides with the
Python computation.
-/

-- ## Strings as lists of characters

abbrev Str : Type := List Char

def str (s : String) : Str := s.toList

/-- The whitespace characters stripped by Python `str.strip()`. -/
def pyIsSpace (c : Char) : Bool :=
  c == ' ' || c == '\t' || c == '\n' || c == '\r' || c == '\x0b' || c == '\x0c'

/-- Python `str.lstrip()`. -/
def pyLstrip (s : Str) : Str := s.dropWhile pyIsSpace

/-- Python `str.rstrip()`. -/
def pyRstrip (s : Str) : Str := (s.reverse.dropWhile pyIsSpace).reverse

/-- Python `str.strip()`. -/
def pyStrip (s : Str) : Str := pyLstrip (pyRstrip s)

/-- `text[:len(text) - len(text.lstrip())]`: the run of leading whitespace. -/
def leadingWS (s : Str) : Str := s.takeWhile pyIsSpace

/-- `text[len(text.rstrip()):]`: the run of trailing whitespace. -/
def trailingWS (s : Str) : Str := (s.reverse.takeWhile pyIsSpace).reverse

/-- Python `str.lower()` restricted to ASCII-style per-character lowering. -/
def lowerStr (s : Str) : Str := s.map Char.toLower

/-- Python `sep.join(parts)`. -/
def joinSep (sep : Str) : List Str → Str
  | [] => []
  | [x] => x
  | x :: y :: rest => x ++ sep ++ joinSep sep (y :: rest)

/-- Python `s * n` for strings (`"> " * n`, `"  " * level`). -/
def reptStr (n : Nat) (s : Str) : Str := (List.replicate n s).flatten

/-- Python `text.split(sep)` for a one-character separator (keeps empty parts;
`"".split(sep) == [""]`). -/
def splitOnChar (sep : Char) : Str → List Str
  | [] => [[]]
  | c :: rest =>
    if c == sep then [] :: splitOnChar sep rest
    else
      match splitOnChar sep rest with
      | [] => [[c]]
      | r :: rs => (c :: r) :: rs

/-- Scanner for `replaceStr`, structurally recursive on a step bound that
never falls below the remaining input length (each step consumes at least
one character, since `pat` is nonempty whenever its prefix test succeeds). -/
def replaceStrAux (pat repl : Str) : Nat → Str → Str
  | _, [] => []
  | 0, s => s
  | bound+1, c :: rest =>
    if pat ≠ [] ∧ pat.isPrefixOf (c :: rest) then
      repl ++ replaceStrAux pat repl bound ((c :: rest).drop pat.length)
    else
      c :: replaceStrAux pat repl bound rest

/-- Python `s.replace(pat, repl)` (non-overlapping, left to right); `pat`
is nonempty at every call site. -/
def replaceStr (pat repl s : Str) : Str := replaceStrAux pat repl s.length s

/-- Python `str(n)` for a nonnegative integer. -/
def natToStr (n : Nat) : Str := (Nat.repr n).toList

/-- Python `pat in s` for strings (substring test). -/
def strIn (pat : Str) : Str → Bool
  | [] => pat.isEmpty
  | c :: rest => pat.isPrefixOf (c :: rest) || strIn pat rest

-- ## The document tree

/-- A BeautifulSoup node: a `NavigableString` or a `Tag` with tag name,
attributes, class tokens and children. -/
inductive Node where
  | text : Str → Node
  | elem : Str → List (Str × Str) → List Str → List Node → Node

def Node.children : Node → List Node
  | .text _ => []
  | .elem _ _ _ ch => ch

/-- `element.name.lower()`; the empty string for a `NavigableString`. -/
def Node.tagLower : Node → Str
  | .text _ => []
  | .elem t _ _ _ => lowerStr t

/-- `element.get(name, '')` for string-valued attributes. -/
def getAttr (n : Node) (name : Str) : Str :=
  match n with
  | .text _ => []
  | .elem _ attrs _ _ => (((attrs.find? (fun p => p.1 == name)).map Prod.snd).getD [])

/-- `name in element.get('class', [])`. -/
def Node.hasClass (n : Node) (c : Str) : Bool :=
  match n with
  | .text _ => false
  | .elem _ _ cls _ => cls.contains c

/-- `isinstance(n, Tag) and n.name and n.name.lower() == t`. -/
def isTag (n : Node) (t : Str) : Bool :=
  match n with
  | .text _ => false
  | .elem tg _ _ _ => lowerStr tg == t

-- `element.get_text()`: concatenation of every string in the subtree.
mutual
def getTextN : Node → Str
  | .text s => s
  | .elem _ _ _ ch => getTextL ch
def getTextL : List Node → Str
  | [] => []
  | n :: ns => getTextN n ++ getTextL ns
end

/-- `_extract_plain_text`: `element.get_text().strip()`. -/
def extractPlainText (n : Node) : Str := pyStrip (getTextN n)

-- ## CSS selection
--
-- The entries of a subtree are enumerated in document (pre-)order, each
-- paired with the chain of its ancestors below the searched element
-- (outermost first).  A descendant-combinator selector matches an entry when
-- its last simple selector matches the entry's node and the earlier simple
-- selectors match a subsequence of an ancestor chain, in order.  soupsieve
-- (the engine behind `element.select`) restricts the returned elements to
-- descendants of the searched element but matches the ancestor parts of a
-- descendant combinator against the whole document, ancestors of the
-- searched element included; `selectChainDoc` models this by prepending the
-- searched element and its document ancestors to every chain.  The
-- subtree-scoped `selectChain` coincides with it whenever no ancestor of
-- the searched element satisfies a leading simple selector — in particular
-- whenever the searched element is not inside any matching ancestor.

mutual
def entriesNode (a0 : List Node) : Node → List (List Node × Node)
  | .text s => [(a0, .text s)]
  | .elem t a c ch => (a0, .elem t a c ch) :: entriesList (a0 ++ [.elem t a c ch]) ch
def entriesList (a0 : List Node) : List Node → List (List Node × Node)
  | [] => []
  | n :: ns => entriesNode a0 n ++ entriesList a0 ns
end

/-- The proper descendants of `n`, each with its chain of ancestors strictly
below `n` (outermost first). -/
def properEntries (n : Node) : List (List Node × Node) :=
  entriesList [] n.children

/-- The earlier simple selectors of a descendant chain match a subsequence of
the ancestor list, in order. -/
def ancMatch : List (Node → Bool) → List Node → Bool
  | [], _ => true
  | _ :: _, [] => false
  | p :: ps, a :: rest => (p a && ancMatch ps rest) || ancMatch (p :: ps) rest

/-- All matches of the descendant-combinator selector `init... last` among the
proper descendants of `n`, in document order. -/
def selectChain (init : List (Node → Bool)) (last : Node → Bool) (n : Node) :
    List Node :=
  ((properEntries n).filter (fun e => last e.2 && ancMatch init e.1)).map Prod.snd

/-- `element.select_one(...)` for a descendant-combinator selector. -/
def selectFirstChain (init : List (Node → Bool)) (last : Node → Bool) (n : Node) :
    Option Node :=
  (selectChain init last n).head?

/-- `element.select(sel)` for a single simple selector. -/
def selectAllSimple (p : Node → Bool) (n : Node) : List Node :=
  selectChain [] p n

/-- `element.select_one(sel)` for a single simple selector. -/
def selectFirstSimple (p : Node → Bool) (n : Node) : Option Node :=
  selectFirstChain [] p n

/-- All matches of the descendant-combinator selector `init... last` among
the proper descendants of `n`, with soupsieve whole-document ancestor
matching: `docAnc` lists the document ancestors of `n`, outermost first. -/
def selectChainDoc (docAnc : List Node) (init : List (Node → Bool))
    (last : Node → Bool) (n : Node) : List Node :=
  ((properEntries n).filter
    (fun e => last e.2 && ancMatch init (docAnc ++ n :: e.1))).map Prod.snd

-- ## Style sets

/-- The composable inline styles; underline is never added to the set. -/
inductive Style where
  | bold
  | italic
  | strike
deriving DecidableEq

/-- A Python set of style tags drawn from bold, italic and strike,
represented by its membership flags. -/
structure StyleSet where
  bold : Bool
  italic : Bool
  strike : Bool
deriving DecidableEq

def StyleSet.empty : StyleSet := ⟨false, false, false⟩

/-- The union of `styles` with the singleton of `style`. -/
def StyleSet.insert (s : StyleSet) : Style → StyleSet
  | .bold => { s with bold := true }
  | .italic => { s with italic := true }
  | .strike => { s with strike := true }

/-- `_apply_markdown_style(text, styles)`. -/
def applyMarkdownStyle (text : Str) (styles : StyleSet) : Str :=
  if text == [] then []
  else
    let trimmed := pyStrip text
    if trimmed == [] then text
    else
      let pre1 := if styles.strike then str "~~" else []
      let pre2 :=
        if styles.bold && styles.italic then str "***"
        else if styles.bold then str "**"
        else if styles.italic then str "*"
        else []
      leadingWS text ++ pre1 ++ pre2 ++ trimmed ++ pre2 ++ pre1 ++ trailingWS text

-- ## URL parsing (model of `urllib.parse`)

/-- A character allowed in a URL scheme after the leading letter. -/
def schemeChar (c : Char) : Bool :=
  c.isAlphanum || c == '+' || c == '-' || c == '.'

/-- `urlsplit` removes any tab, carriage return and newline from the URL. -/
def removeUnsafeUrlChars (s : Str) : Str :=
  s.filter (fun c => !(c == '\t' || c == '\r' || c == '\n'))

/-- `urlsplit` strips leading and trailing C0-control-or-space characters. -/
def stripC0 (s : Str) : Str :=
  ((s.dropWhile (fun c => c ≤ ' ')).reverse.dropWhile (fun c => c ≤ ' ')).reverse

/-- Index of the first occurrence of `c`, or `s.length` when absent
(Python `find` returns `-1`; call sites only compare against the length). -/
def idxOfChar (c : Char) (s : Str) : Nat := s.findIdx (fun x => x == c)

/-- Drop a leading `scheme:` when the candidate scheme is well formed. -/
def splitScheme (u : Str) : Str :=
  let i := idxOfChar ':' u
  if 0 < i ∧ i < u.length then
    let pre := u.take i
    if (match pre with | c :: _ => c.isAlpha | [] => false) && pre.all schemeChar
    then u.drop (i + 1) else u
  else u

/-- Strip a leading `//netloc`; `none` models the `ValueError` raised on an
unbalanced IPv6 bracket in the netloc. -/
def splitNetloc (u : Str) : Option Str :=
  if (str "//").isPrefixOf u then
    let rest := u.drop 2
    let netloc := rest.takeWhile (fun c => !(c == '/' || c == '?' || c == '#'))
    if (netloc.contains '[' && !netloc.contains ']') ||
       (netloc.contains ']' && !netloc.contains '[') then none
    else some (rest.drop netloc.length)
  else some u

/-- Drop the fragment (first `#`) and then the query (first `?`). -/
def stripFragQuery (u : Str) : Str :=
  (u.takeWhile (fun c => !(c == '#'))).takeWhile (fun c => !(c == '?'))

/-- `urlparse` additionally splits `;params` off the last path segment. -/
def splitParams (p : Str) : Str :=
  if p.contains '/' then
    let j := p.reverse.findIdx (fun x => x == '/')
    let start := p.length - 1 - j
    let tailPart := p.drop start
    if tailPart.contains ';' then p.take (start + idxOfChar ';' tailPart) else p
  else
    if p.contains ';' then p.take (idxOfChar ';' p) else p

/-- `urlparse(url).path`; `none` models a raised `ValueError`. -/
def urlparsePathOpt (url : Str) : Option Str :=
  let u := removeUnsafeUrlChars (stripC0 url)
  let u := splitScheme u
  match splitNetloc u with
  | none => none
  | some rest => some (splitParams (stripFragQuery rest))

/-- Value of an ASCII hexadecimal digit. -/
def hexDigit (c : Char) : Option Nat :=
  if '0' ≤ c ∧ c ≤ '9' then some (c.toNat - '0'.toNat)
  else if 'a' ≤ c ∧ c ≤ 'f' then some (c.toNat - 'a'.toNat + 10)
  else if 'A' ≤ c ∧ c ≤ 'F' then some (c.toNat - 'A'.toNat + 10)
  else none

/-- `urllib.parse.unquote` for percent-encoded single-byte sequences (the
Python original reassembles multi-byte UTF-8 runs; the two agree whenever
every decoded byte is ASCII, which covers every input considered here). -/
def unquote : Str → Str
  | [] => []
  | '%' :: a :: b :: rest =>
    match hexDigit a, hexDigit b with
    | some x, some y => Char.ofNat (16 * x + y) :: unquote rest
    | _, _ => '%' :: unquote (a :: b :: rest)
  | c :: rest => c :: unquote rest

/-- `s.replace(' ', '_')`. -/
def spacesToUnderscores (s : Str) : Str :=
  s.map (fun c => if c == ' ' then '_' else c)

-- ## Local image names and image conversion

/-- First index of `a` in `l` (`l.length` when absent), as Python
`list.index` on the call sites guarded by membership. -/
def listIdxOf (a : Str) (l : List Str) : Nat := l.findIdx (fun x => x == a)

/-- `_generate_local_image_name(url_string, page_id)`.  The `none` branch of
the URL parser models the `except Exception` handler. -/
def generateLocalImageName (urlString pageId : Str) : Str :=
  match urlparsePathOpt urlString with
  | none => pageId ++ str "_image.png"
  | some path =>
    let pathParts := splitOnChar '/' path
    if pathParts.contains (str "attachments") ∧
        listIdxOf (str "attachments") pathParts + 2 < pathParts.length then
      let idx := listIdxOf (str "attachments") pathParts
      let attachmentPageId := pathParts.getD (idx + 1) []
      let filename := pathParts.getD (idx + 2) []
      attachmentPageId ++ ['_'] ++ spacesToUnderscores (unquote filename)
    else
      let lastComponent := (splitOnChar '/' path).getLastD []
      let decodedName := spacesToUnderscores (unquote lastComponent)
      if decodedName.contains '.' then pageId ++ ['_'] ++ decodedName
      else pageId ++ ['_'] ++ decodedName ++ str ".png"

/-- The per-conversion converter state read by `_convert_image`: `base_url`,
`_current_page_id` and whether `_current_output_dir` is set. -/
structure Ctx where
  baseUrl : Str
  currentPageId : Option Str
  hasOutputDir : Bool

/-- Python truthiness of an `Optional[str]`. -/
def pyTruthyOptStr : Option Str → Bool
  | none => false
  | some s => s != []

/-- `_convert_image(element)`: returns the emitted Markdown together with the
entries this call appends to `_images_to_download` (a singleton in saving
mode, nothing otherwise). -/
def convertImage (ctx : Ctx) (el : Node) : Str × List (Str × Str) :=
  let dataSrc := getAttr el (str "data-image-src")
  let src := if dataSrc != [] then dataSrc else getAttr el (str "src")
  let fullUrl :=
    if src != [] && !((str "http").isPrefixOf src) then ctx.baseUrl ++ src else src
  let alt := getAttr el (str "alt")
  let title := getAttr el (str "data-linked-resource-default-alias")
  let altText := if alt != [] then alt else if title != [] then title else str "image"
  if pyTruthyOptStr ctx.currentPageId && ctx.hasOutputDir then
    let localName :=
      generateLocalImageName fullUrl (ctx.currentPageId.getD [])
    (str "![" ++ altText ++ str "](" ++ localName ++ str ")", [(fullUrl, localName)])
  else
    (str "![" ++ altText ++ str "](" ++ fullUrl ++ str ")", [])

-- ## Code blocks

/-- A `\w` character of the Python `re` module (ASCII portion). -/
def isWordChar (c : Char) : Bool := c.isAlphanum || c == '_'

/-- A `\s` character of the Python `re` module (ASCII portion). -/
def reIsSpace (c : Char) : Bool := pyIsSpace c

/-- Model of Python `re.search(r'brush:\s*(\w+)', params)`: the captured word
of the leftmost match, if any. -/
def brushSearch : Str → Option Str
  | [] => none
  | c :: rest =>
    if (str "brush:").isPrefixOf (c :: rest) then
      let after := ((c :: rest).drop 6).dropWhile reIsSpace
      let w := after.takeWhile isWordChar
      if w != [] then some w else brushSearch rest
    else brushSearch rest

/-- `_convert_pre_block(element)`. -/
def convertPreBlock (el : Node) : Str :=
  let params := getAttr el (str "data-syntaxhighlighter-params")
  let language :=
    if params != [] then
      match brushSearch params with
      | some l => l
      | none => []
    else []
  let code := getTextN el
  str "```" ++ language ++ str "\n" ++ code ++ str "\n```\n\n"

-- ## Table rows and the nested-table test

/-- The `tr` children of a node. -/
def trChildren (n : Node) : List Node :=
  n.children.filter (fun c => isTag c (str "tr"))

/-- `_get_direct_table_rows(element)`: the Python loop keeps the last `tbody`
and the last `thead` child; header rows come first, then the body rows
(the table itself serves as body when no `tbody` child exists). -/
def getDirectTableRows (el : Node) : List Node :=
  let tbody := (el.children.filter (fun c => isTag c (str "tbody"))).getLast?
  let thead := (el.children.filter (fun c => isTag c (str "thead"))).getLast?
  let headRows := match thead with
    | some h => trChildren h
    | none => []
  let bodyHolder := match tbody with
    | some b => b
    | none => el
  headRows ++ trChildren bodyHolder

/-- A `td` or `th` element. -/
def tableCellPred (n : Node) : Bool := isTag n (str "td") || isTag n (str "th")

/-- A `table` element or a `table-wrap`-classed element. -/
def nestedTablePred (n : Node) : Bool :=
  isTag n (str "table") || n.hasClass (str "table-wrap")

/-- The subtree-scoped form of the `_convert_table` nested-table test: some
proper descendant matches `table` or `.table-wrap` below a `td`/`th` of the
searched element itself.  It agrees with the selector
`element.select('td table, th table, td .table-wrap, th .table-wrap')`
exactly when no `td`/`th` lies above the searched element in the document
(`hasNestedTableDoc` below is the whole-document form); the fuelled
renderer family uses this scoped form, which is exact for any table that
does not itself sit inside a cell. -/
def hasNestedTable (el : Node) : Bool :=
  !(selectChain [tableCellPred] nestedTablePred el).isEmpty

/-- `bool(element.select('td table, th table, td .table-wrap, th .table-wrap'))`
with soupsieve semantics: the `td`/`th` of the descendant combinator may
also be an ancestor of the searched table; `docAnc` lists the searched
element's document ancestors, outermost first. -/
def hasNestedTableDoc (docAnc : List Node) (el : Node) : Bool :=
  !(selectChainDoc docAnc [tableCellPred] nestedTablePred el).isEmpty

-- ## The conversion engine
--
-- One Python method call = one unit of fuel; every function returns its
-- neutral value at fuel 0.

mutual

/-- `_convert_element(element)`. -/
def convertElement : Nat → Ctx → Node → Str
  | 0, _, _ => []
  | fuel+1, ctx, el =>
    (el.children.map (fun c =>
      match c with
      | .text s => if pyStrip s != [] then s else []
      | .elem _ _ _ _ => convertSingleElement fuel ctx c)).flatten

/-- `_convert_single_element(element)`. -/
def convertSingleElement : Nat → Ctx → Node → Str
  | 0, _, _ => []
  | fuel+1, ctx, el =>
    let t := el.tagLower
    if t == str "h1" then str "# " ++ extractPlainText el ++ str "\n\n"
    else if t == str "h2" then str "## " ++ extractPlainText el ++ str "\n\n"
    else if t == str "h3" then str "### " ++ extractPlainText el ++ str "\n\n"
    else if t == str "h4" then str "#### " ++ extractPlainText el ++ str "\n\n"
    else if t == str "h5" then str "##### " ++ extractPlainText el ++ str "\n\n"
    else if t == str "h6" then str "###### " ++ extractPlainText el ++ str "\n\n"
    else if t == str "p" then
      let content := convertInlineContent fuel ctx StyleSet.empty el
      if pyStrip content == [] then str "\n" else content ++ str "\n\n"
    else if t == str "blockquote" then
      let content := pyStrip (convertElement fuel ctx el)
      let lines := splitOnChar '\n' content
      joinSep (str "\n") (lines.map (fun l => str "> " ++ l)) ++ str "\n\n"
    else if t == str "ul" then
      if el.hasClass (str "inline-task-list") then convertTaskList fuel ctx el
      else convertUnorderedList fuel ctx 0 el
    else if t == str "ol" then convertOrderedList fuel ctx 0 el
    else if t == str "li" then convertInlineContent fuel ctx StyleSet.empty el
    else if t == str "table" then convertTable fuel ctx el
    else if t == str "div" then
      -- the Python branch falls through to the code-panel / plain-div cases
      -- when a table-wrap div holds no table
      let divRest :=
        if el.hasClass (str "code") && el.hasClass (str "panel") then
          convertCodeBlock fuel ctx el
        else convertElement fuel ctx el
      if el.hasClass (str "table-wrap") then
        match selectFirstSimple (fun n => isTag n (str "table")) el with
        | some tb => convertTable fuel ctx tb
        | none => divRest
      else divRest
    else if t == str "pre" then convertPreBlock el
    else if t == str "code" then str "`" ++ getTextN el ++ str "`"
    else if t == str "br" then str "\n"
    else if t == str "hr" then str "\n---\n\n"
    else if t == str "img" then (convertImage ctx el).1
    else if t == str "a" then convertLink fuel ctx el
    else if t == str "strong" || t == str "b" then
      str "**" ++ convertInlineContent fuel ctx StyleSet.empty el ++ str "**"
    else if t == str "em" || t == str "i" then
      str "*" ++ convertInlineContent fuel ctx StyleSet.empty el ++ str "*"
    else if t == str "u" then
      str "<u>" ++ convertInlineContent fuel ctx StyleSet.empty el ++ str "</u>"
    else if t == str "s" || t == str "del" || t == str "strike" then
      str "~~" ++ convertInlineContent fuel ctx StyleSet.empty el ++ str "~~"
    else if t == str "span" then convertSpan fuel ctx StyleSet.empty el
    else if t == str "time" then
      let dt := getAttr el (str "datetime")
      let tx := getTextN el
      if tx != [] then tx else dt
    else if t == str "colgroup" || t == str "col" || t == str "fieldset" then []
    else if t == str "tbody" || t == str "thead" then convertElement fuel ctx el
    else convertElement fuel ctx el

/-- `_convert_inline_content(element, inherited_styles)`. -/
def convertInlineContent : Nat → Ctx → StyleSet → Node → Str
  | 0, _, _, _ => []
  | fuel+1, ctx, styles, el =>
    (el.children.map (fun c =>
      match c with
      | .text s => s
      | .elem _ _ _ _ =>
        let t := c.tagLower
        if t == str "strong" || t == str "b" then
          convertFormattedContent fuel ctx Style.bold styles c
        else if t == str "em" || t == str "i" then
          convertFormattedContent fuel ctx Style.italic styles c
        else if t == str "u" then
          str "<u>" ++ convertInlineContent fuel ctx styles c ++ str "</u>"
        else if t == str "s" || t == str "del" || t == str "strike" then
          convertFormattedContent fuel ctx Style.strike styles c
        else if t == str "code" then str "`" ++ getTextN c ++ str "`"
        else if t == str "a" then convertLink fuel ctx c
        else if t == str "img" then (convertImage ctx c).1
        else if t == str "span" then convertSpan fuel ctx styles c
        else if t == str "br" then str "\n"
        else if t == str "time" then
          let dt := getAttr c (str "datetime")
          let tx := getTextN c
          if tx != [] then tx else dt
        else convertInlineContent fuel ctx styles c)).flatten

/-- `_convert_formatted_content(element, style, inherited_styles)`. -/
def convertFormattedContent : Nat → Ctx → Style → StyleSet → Node → Str
  | 0, _, _, _, _ => []
  | fuel+1, ctx, sty, inherited, el =>
    let newStyles := inherited.insert sty
    let hasNestedFormatting := el.children.any (fun c =>
      match c with
      | .text _ => false
      | .elem _ _ _ _ =>
        let t := c.tagLower
        t == str "strong" || t == str "b" || t == str "em" || t == str "i" ||
          t == str "s" || t == str "del" || t == str "strike")
    if hasNestedFormatting then
      (el.children.map (fun c =>
        match c with
        | .text s => if s != [] then applyMarkdownStyle s newStyles else []
        | .elem _ _ _ _ =>
          let t := c.tagLower
          if t == str "strong" || t == str "b" then
            convertFormattedContent fuel ctx Style.bold newStyles c
          else if t == str "em" || t == str "i" then
            convertFormattedContent fuel ctx Style.italic newStyles c
          else if t == str "s" || t == str "del" || t == str "strike" then
            convertFormattedContent fuel ctx Style.strike newStyles c
          else if t == str "u" then
            str "<u>" ++ convertInlineContent fuel ctx newStyles c ++ str "</u>"
          else
            applyMarkdownStyle (convertInlineContent fuel ctx newStyles c)
              newStyles)).flatten
    else
      applyMarkdownStyle (convertInlineContent fuel ctx newStyles el) newStyles

/-- `_convert_span(element, inherited_styles)`. -/
def convertSpan : Nat → Ctx → StyleSet → Node → Str
  | 0, _, _, _ => []
  | fuel+1, ctx, inherited, el =>
    let style := getAttr el (str "style")
    let content := convertInlineContent fuel ctx inherited el
    if strIn (str "color:") style then
      applyMarkdownStyle content (inherited.insert Style.italic)
    else content

/-- `_convert_link(element)`. -/
def convertLink : Nat → Ctx → Node → Str
  | 0, _, _ => []
  | fuel+1, ctx, el =>
    let href0 := getAttr el (str "href")
    let text := convertInlineContent fuel ctx StyleSet.empty el
    let href :=
      if href0 != [] && !((str "http").isPrefixOf href0) &&
          !((str "#").isPrefixOf href0) && !((str "mailto:").isPrefixOf href0) then
        ctx.baseUrl ++ href0
      else href0
    let linkText := pyStrip text
    if linkText == [] then href
    else str "[" ++ linkText ++ str "](" ++ href ++ str ")"

/-- `_convert_unordered_list(element, level)`. -/
def convertUnorderedList : Nat → Ctx → Nat → Node → Str
  | 0, _, _, _ => []
  | fuel+1, ctx, level, el =>
    let indent := reptStr level (str "  ")
    let items := el.children.filterMap (fun li =>
      if isTag li (str "li") then
        let itemContent := (li.children.map (fun c =>
          match c with
          | .text s => s
          | .elem _ _ _ _ =>
            let ct := c.tagLower
            if ct == str "ul" then str "\n" ++ convertUnorderedList fuel ctx (level+1) c
            else if ct == str "ol" then str "\n" ++ convertOrderedList fuel ctx (level+1) c
            else convertSingleElement fuel ctx c)).flatten
        some (indent ++ str "- " ++ pyStrip itemContent ++ str "\n")
      else none)
    items.flatten ++ (if level == 0 then str "\n" else [])

/-- `_convert_ordered_list(element, level)`; the accumulator pairs the output
built so far with the `index` counter initialised to 1. -/
def convertOrderedList : Nat → Ctx → Nat → Node → Str
  | 0, _, _, _ => []
  | fuel+1, ctx, level, el =>
    let indent := reptStr level (str "  ")
    let fin := el.children.foldl (fun (st : Str × Nat) li =>
      if isTag li (str "li") then
        let itemContent := (li.children.map (fun c =>
          match c with
          | .text s => s
          | .elem _ _ _ _ =>
            let ct := c.tagLower
            if ct == str "ul" then str "\n" ++ convertUnorderedList fuel ctx (level+1) c
            else if ct == str "ol" then str "\n" ++ convertOrderedList fuel ctx (level+1) c
            else convertSingleElement fuel ctx c)).flatten
        (st.1 ++ indent ++ natToStr st.2 ++ str ". " ++ pyStrip itemContent ++ str "\n",
          st.2 + 1)
      else st) ([], 1)
    fin.1 ++ (if level == 0 then str "\n" else [])

/-- `_convert_task_list(element)`. -/
def convertTaskList : Nat → Ctx → Node → Str
  | 0, _, _ => []
  | fuel+1, ctx, el =>
    ((el.children.filterMap (fun li =>
      if isTag li (str "li") then
        let checkbox := if li.hasClass (str "checked") then str "[x]" else str "[ ]"
        let content := pyStrip (convertInlineContent fuel ctx StyleSet.empty li)
        some (str "- " ++ checkbox ++ str " " ++ content ++ str "\n")
      else none)).flatten) ++ str "\n"

/-- `_convert_table(element)`. -/
def convertTable : Nat → Ctx → Node → Str
  | 0, _, _ => []
  | fuel+1, ctx, el =>
    if hasNestedTable el then convertTableToHtml fuel ctx el
    else convertTableToMarkdown fuel ctx el

/-- `_convert_table_to_markdown(element)`; the accumulator carries
`(header_row, is_header, rows)`. -/
def convertTableToMarkdown : Nat → Ctx → Node → Str
  | 0, _, _ => []
  | fuel+1, ctx, el =>
    let directRows := getDirectTableRows el
    let fin := directRows.enum.foldl
      (fun (st : List Str × Bool × List (List Str)) p =>
        let cells := p.2.children.filterMap (fun c =>
          match c with
          | .text _ => none
          | .elem _ _ _ _ =>
            let tn := c.tagLower
            if tn == str "th" || tn == str "td" then
              some (replaceStr (str "|") (str "\\|")
                (replaceStr (str "\n") (str "<br>")
                  (pyStrip (convertTableCellContent fuel ctx c))))
            else none)
        let isHeader := st.2.1 || p.2.children.any (fun c => isTag c (str "th"))
        if p.1 == 0 && isHeader then (cells, isHeader, st.2.2)
        else if p.1 == 0 then (List.replicate cells.length [], isHeader, st.2.2 ++ [cells])
        else (st.1, isHeader, st.2.2 ++ [cells]))
      ([], false, [])
    let headerRow0 := fin.1
    let rows0 := fin.2.2
    if headerRow0.isEmpty && rows0.isEmpty then []
    else
      let headerRow := if headerRow0.isEmpty then rows0.headD [] else headerRow0
      let rows := if headerRow0.isEmpty then rows0.tail else rows0
      let separatorCells : List Str := List.replicate headerRow.length (str "---")
      str "| " ++ joinSep (str " | ") headerRow ++ str " |\n" ++
      str "| " ++ joinSep (str " | ") separatorCells ++ str " |\n" ++
      ((rows.map (fun row =>
        let padded := row ++ List.replicate (headerRow.length - row.length) ([] : Str)
        str "| " ++ joinSep (str " | ") (padded.take headerRow.length) ++
          str " |\n")).flatten) ++
      str "\n"

/-- `_convert_table_to_html(element)`. -/
def convertTableToHtml : Nat → Ctx → Node → Str
  | 0, _, _ => []
  | fuel+1, ctx, el =>
    str "\n<table>\n" ++
    ((getDirectTableRows el).map (fun tr =>
      str "\n<tr>\n" ++
      ((tr.children.filterMap (fun c =>
        match c with
        | .text _ => none
        | .elem _ _ _ _ =>
          let tn := c.tagLower
          if tn == str "th" || tn == str "td" then
            some (str "\n<" ++ tn ++ str ">\n\n" ++
              convertTableCellToHtml fuel ctx c ++ str "\n\n</" ++ tn ++ str ">\n")
          else none)).flatten) ++
      str "\n</tr>\n")).flatten ++
    str "\n</table>\n\n"

/-- `_convert_table_cell_to_html(element)`. -/
def convertTableCellToHtml : Nat → Ctx → Node → Str
  | 0, _, _ => []
  | fuel+1, ctx, el =>
    pyStrip (el.children.foldl (fun result c =>
      match c with
      | .text s => if pyStrip s != [] then result ++ s else result
      | .elem _ _ _ _ =>
        let t := c.tagLower
        if t == str "table" then result ++ convertTableToHtml fuel ctx c
        else if t == str "div" then
          if c.hasClass (str "table-wrap") then
            match selectFirstSimple (fun n => isTag n (str "table")) c with
            | some tb => result ++ convertTableToHtml fuel ctx tb
            | none => result ++ convertTableCellToHtml fuel ctx c
          else if c.hasClass (str "content-wrapper") then
            result ++ convertTableCellToHtml fuel ctx c
          else if c.hasClass (str "code") && c.hasClass (str "panel") then
            result ++ convertCodeBlock fuel ctx c
          else result ++ convertSingleElement fuel ctx c
        else if t == str "pre" then result ++ convertPreBlock c
        else if t == str "ul" then result ++ convertUnorderedList fuel ctx 0 c
        else if t == str "ol" then result ++ convertOrderedList fuel ctx 0 c
        else if t == str "p" then
          let content := convertInlineContent fuel ctx StyleSet.empty c
          if pyStrip content != [] then result ++ content ++ str "\n\n" else result
        else if t == str "br" then result ++ str "\n"
        else result ++ convertSingleElement fuel ctx c) [])

/-- `_convert_table_cell_content(element)`. -/
def convertTableCellContent : Nat → Ctx → Node → Str
  | 0, _, _ => []
  | fuel+1, ctx, el =>
    el.children.foldl (fun result c =>
      match c with
      | .text s => if pyStrip s != [] then result ++ s else result
      | .elem _ _ _ _ =>
        let t := c.tagLower
        if t == str "ul" then
          let items := selectAllSimple (fun n => isTag n (str "li")) c
          let itemTexts := items.map (fun li =>
            pyStrip (convertInlineContent fuel ctx StyleSet.empty li))
          let r := if pyStrip result != [] then result ++ str "\n" else result
          r ++ joinSep (str "\n") (itemTexts.map (fun tx => str "• " ++ tx))
        else if t == str "ol" then
          let items := selectAllSimple (fun n => isTag n (str "li")) c
          let r := if pyStrip result != [] then result ++ str "\n" else result
          let itemTexts := items.enum.map (fun p =>
            natToStr (p.1 + 1) ++ str ". " ++
              pyStrip (convertInlineContent fuel ctx StyleSet.empty p.2))
          r ++ joinSep (str "\n") itemTexts
        else if t == str "div" then
          if c.hasClass (str "content-wrapper") then
            result ++ convertTableCellContent fuel ctx c
          else result ++ convertSingleElement fuel ctx c
        else if t == str "p" then
          let content := convertInlineContent fuel ctx StyleSet.empty c
          let r := if pyStrip result != [] && pyStrip content != [] then
              result ++ str "\n"
            else result
          r ++ content
        else if t == str "br" then result ++ str "\n"
        else result ++ convertSingleElement fuel ctx c) []

/-- `_convert_code_block(element)`. -/
def convertCodeBlock : Nat → Ctx → Node → Str
  | 0, _, _ => []
  | fuel+1, ctx, el =>
    match selectFirstSimple (fun n => isTag n (str "pre")) el with
    | some pre => convertPreBlock pre
    | none => convertElement fuel ctx el

/-- `_extract_comments_from_thread(thread, level)`. -/
def extractCommentsFromThread : Nat → Ctx → Node → Nat → List Str
  | 0, _, _, _ => []
  | fuel+1, ctx, thread, level =>
    let quotePref := reptStr (level + 1) (str "> ")
    (thread.children.map (fun child =>
      match child with
      | .text _ => []
      | .elem _ _ _ _ =>
        if child.hasClass (str "comment") then
          let authorEl := selectFirstChain
            [fun n => n.hasClass (str "comment-header"),
             fun n => n.hasClass (str "author")]
            (fun n => isTag n (str "a")) child
          let author := match authorEl with
            | some a => getTextN a
            | none => str "Unknown"
          let contentEl := selectFirstSimple
            (fun n => n.hasClass (str "comment-content") &&
              n.hasClass (str "wiki-content")) child
          let commentText := match contentEl with
            | some ce => pyStrip (convertElement fuel ctx ce)
            | none => []
          let timeEl := selectFirstChain [fun n => n.hasClass (str "comment-date")]
            (fun n => isTag n (str "a")) child
          let timeStr := match timeEl with
            | some te => getTextN te
            | none => []
          if commentText != [] then
            [quotePref ++ str "**" ++ author ++ str "** (" ++ timeStr ++ str "):"] ++
            (splitOnChar '\n' commentText).map (fun l => quotePref ++ l) ++
            [[]]
          else []
        else if child.hasClass (str "comment-threads") then
          (child.children.filterMap (fun ct =>
            match ct with
            | .text _ => none
            | .elem _ _ _ _ =>
              if ct.hasClass (str "comment-thread") then
                some (extractCommentsFromThread fuel ctx ct (level + 1))
              else none)).flatten
        else [])).flatten

end

-- ## Entry-point argument validation

/-- The fetch a conversion entry point performs after validating its
arguments. -/
inductive FetchRequest where
  | byUrl : Str → FetchRequest
  | byId : Str → FetchRequest
deriving DecidableEq

inductive ConvError where
  | invalidInput
deriving DecidableEq

/-- The argument-validation and fetch-dispatch stage of
`convert(url, page_id)`: either the fetch it goes on to perform (after which
`_convert_html` runs on the fetched text), or the `ValueError` raised before
any fetch or conversion is invoked. -/
def convertPlan (url pageId : Option Str) : Except ConvError FetchRequest :=
  if pyTruthyOptStr url then .ok (.byUrl (url.getD []))
  else if pyTruthyOptStr pageId then .ok (.byId (pageId.getD []))
  else .error .invalidInput

/-- The same validation stage of `convert_and_save(url, page_id)`. -/
def convertAndSavePlan (url pageId : Option Str) : Except ConvError FetchRequest :=
  if pyTruthyOptStr url then .ok (.byUrl (url.getD []))
  else if pyTruthyOptStr pageId then .ok (.byId (pageId.getD []))
  else .error .invalidInput

-- ## Whitespace decomposition lemmas

theorem rstrip_append_trailing (s : Str) : pyRstrip s ++ trailingWS s = s := by
  unfold pyRstrip trailingWS
  rw [← List.reverse_append, List.takeWhile_append_dropWhile, List.reverse_reverse]

theorem leading_append_lstrip (s : Str) : leadingWS s ++ pyLstrip s = s := by
  unfold leadingWS pyLstrip
  exact List.takeWhile_append_dropWhile pyIsSpace s

theorem takeWhile_append_left {p : Char → Bool} :
    ∀ (a b : Str), a.dropWhile p ≠ [] → (a ++ b).takeWhile p = a.takeWhile p := by
  intro a
  induction a with
  | nil => intro b h; simp [List.dropWhile] at h
  | cons c a' ih =>
    intro b h
    by_cases hc : p c = true
    · simp only [List.cons_append, List.takeWhile_cons, hc]
      rw [ih b]
      simpa [List.dropWhile, hc] using h
    · simp only [Bool.not_eq_true] at hc
      simp [List.takeWhile_cons, hc]

theorem strip_decomposition (s : Str) (h : pyStrip s ≠ []) :
    leadingWS s ++ pyStrip s ++ trailingWS s = s := by
  have h1 : pyRstrip s = leadingWS (pyRstrip s) ++ pyStrip s := by
    have := leading_append_lstrip (pyRstrip s)
    unfold pyStrip
    exact this.symm
  have hd : (pyRstrip s).dropWhile pyIsSpace ≠ [] := h
  have h2 : leadingWS (pyRstrip s) = leadingWS s := by
    unfold leadingWS
    conv_rhs => rw [← rstrip_append_trailing s]
    rw [takeWhile_append_left (pyRstrip s) (trailingWS s) hd]
  calc leadingWS s ++ pyStrip s ++ trailingWS s
      = leadingWS (pyRstrip s) ++ pyStrip s ++ trailingWS s := by rw [h2]
    _ = pyRstrip s ++ trailingWS s := by rw [← h1]
    _ = s := rstrip_append_trailing s

-- ## The delimiters of the style composer, in their fixed order

/-- The strike-through delimiter chosen for a style set (outermost). -/
def strikeDelim (st : StyleSet) : Str := if st.strike then str "~~" else []

/-- The emphasis delimiter chosen for a style set: the triple marker for
bold plus italic, the double marker for bold alone, the single marker for
italic alone. -/
def emphDelim (st : StyleSet) : Str :=
  if st.bold && st.italic then str "***"
  else if st.bold then str "**"
  else if st.italic then str "*"
  else []

theorem applyMarkdownStyle_eq (text : Str) (styles : StyleSet) :
    applyMarkdownStyle text styles =
      if pyStrip text = [] then text
      else
        leadingWS text ++ strikeDelim styles ++ emphDelim styles ++ pyStrip text ++
          emphDelim styles ++ strikeDelim styles ++ trailingWS text := by
  by_cases h : pyStrip text = []
  · rw [if_pos h]
    unfold applyMarkdownStyle
    by_cases ht : text = []
    · simp [ht]
    · simp [ht, h]
  · have ht : text ≠ [] := by
      intro he
      exact h (by simp [he, pyStrip, pyLstrip, pyRstrip])
    rw [if_neg h]
    unfold applyMarkdownStyle
    simp [ht, h, strikeDelim, emphDelim]

-- ## Claim C6

/-- C6: the style application function splits its input into leading
whitespace, trimmed core and trailing whitespace and wraps only the core in
delimiters, leaving the surrounding whitespace outside; a string whose
trimmed core is empty (in particular any all-whitespace or empty string) is
returned unchanged. -/
theorem claim6_whitespace_rule (text : Str) (styles : StyleSet) :
    applyMarkdownStyle text styles =
      (if pyStrip text = [] then text
       else leadingWS text ++ strikeDelim styles ++ emphDelim styles ++
         pyStrip text ++ emphDelim styles ++ strikeDelim styles ++
         trailingWS text) ∧
    (pyStrip text = [] ∨ leadingWS text ++ pyStrip text ++ trailingWS text = text) := by
  constructor
  · exact applyMarkdownStyle_eq text styles
  · by_cases h : pyStrip text = []
    · exact Or.inl h
    · exact Or.inr (strip_decomposition text h)

-- ## Claim C1

/-- C1: for a text with non-empty trimmed core and any style set from
{bold, italic, strike}, the delimiters are emitted with strike outermost and
the bold/italic marker inside (triple marker for both, double for bold,
single for italic); and because styles are merged into a set first, applying
bold then italic over a text run produces the same output as applying italic
then bold — both equal the triple-marker rendering. -/
theorem claim1_style_order_and_commutativity (text : Str) (styles : StyleSet)
    (h : pyStrip text ≠ []) (fuel : Nat) (ctx : Ctx) (t : Str) :
    applyMarkdownStyle text styles =
      leadingWS text ++ strikeDelim styles ++ emphDelim styles ++ pyStrip text ++
        emphDelim styles ++ strikeDelim styles ++ trailingWS text ∧
    convertFormattedContent (fuel + 3) ctx Style.bold StyleSet.empty
        (Node.elem (str "b") [] [] [Node.elem (str "em") [] [] [Node.text t]]) =
      convertFormattedContent (fuel + 3) ctx Style.italic StyleSet.empty
        (Node.elem (str "em") [] [] [Node.elem (str "b") [] [] [Node.text t]]) ∧
    convertFormattedContent (fuel + 3) ctx Style.bold StyleSet.empty
        (Node.elem (str "b") [] [] [Node.elem (str "em") [] [] [Node.text t]]) =
      applyMarkdownStyle t ⟨true, true, false⟩ := by
  have e1 : convertFormattedContent (fuel + 3) ctx Style.bold StyleSet.empty
      (Node.elem (str "b") [] [] [Node.elem (str "em") [] [] [Node.text t]]) =
      applyMarkdownStyle (t ++ []) ⟨true, true, false⟩ ++ [] := rfl
  have e2 : convertFormattedContent (fuel + 3) ctx Style.italic StyleSet.empty
      (Node.elem (str "em") [] [] [Node.elem (str "b") [] [] [Node.text t]]) =
      applyMarkdownStyle (t ++ []) ⟨true, true, false⟩ ++ [] := rfl
  refine ⟨?_, ?_, ?_⟩
  · have := applyMarkdownStyle_eq text styles
    rwa [if_neg h] at this
  · rw [e1, e2]
  · rw [e1]
    simp

/-- Witness for C1 at concrete inputs. -/
theorem claim1_witness :
    pyStrip (str " hi ") ≠ [] ∧
    applyMarkdownStyle (str " hi ") ⟨true, false, true⟩ = str " ~~**hi**~~ " ∧
    convertFormattedContent 3 ⟨[], none, false⟩ Style.bold StyleSet.empty
        (Node.elem (str "b") [] [] [Node.elem (str "em") [] [] [Node.text (str "x")]]) =
      applyMarkdownStyle (str "x") ⟨true, true, false⟩ :=
  ⟨by decide,
   ((claim1_style_order_and_commutativity (str " hi ") ⟨true, false, true⟩ (by decide)
       0 ⟨[], none, false⟩ (str "x")).1).trans (by decide),
   (claim1_style_order_and_commutativity (str " hi ") ⟨true, false, true⟩ (by decide)
       0 ⟨[], none, false⟩ (str "x")).2.2⟩

-- ## Claim C7

/-- The converter's full mutable per-conversion state as it exists at a
`_generate_local_image_name` call site. -/
structure ConvState where
  ctx : Ctx
  imagesToDownload : List (Str × Str)

/-- `_generate_local_image_name` viewed as a method of the stateful
converter: its Python body reads none of the instance state, which the
definition makes explicit by ignoring the state argument. -/
def generateLocalImageNameIn (_st : ConvState) (urlString pageId : Str) : Str :=
  generateLocalImageName urlString pageId

/-- C7: the local-image-name derivation is a pure, deterministic function of
(reference, page id): its value is the same in any two conversion states,
and equals the state-free function of the two arguments. -/
theorem claim7_name_derivation_deterministic (s1 s2 : ConvState)
    (url pageId : Str) :
    generateLocalImageNameIn s1 url pageId = generateLocalImageNameIn s2 url pageId ∧
    generateLocalImageNameIn s1 url pageId = generateLocalImageName url pageId :=
  ⟨rfl, rfl⟩

-- ## Claim C9

/-- C9 counterexample: with `url` supplied as the empty string (and no page
id), both entry points raise the invalid-input error even though a URL
argument was supplied, refuting the claimed "if and only if neither argument
is supplied". -/
theorem claim9_counterexample :
    convertPlan (some (str "")) none = Except.error ConvError.invalidInput ∧
    convertAndSavePlan (some (str "")) none = Except.error ConvError.invalidInput ∧
    (some (str "") : Option Str) ≠ none :=
  ⟨rfl, rfl, by simp⟩

/-- C9 amended: both entry points raise the invalid-input error exactly when
neither argument is supplied with a truthy (non-None, non-empty) value, and
in that case no fetch request is produced, so no fetching or conversion work
is reached; the two entry points validate identically. -/
theorem claim9_amended_validation (url pageId : Option Str) :
    (convertPlan url pageId = Except.error ConvError.invalidInput ↔
      pyTruthyOptStr url = false ∧ pyTruthyOptStr pageId = false) ∧
    (convertAndSavePlan url pageId = Except.error ConvError.invalidInput ↔
      pyTruthyOptStr url = false ∧ pyTruthyOptStr pageId = false) ∧
    convertAndSavePlan url pageId = convertPlan url pageId := by
  unfold convertPlan convertAndSavePlan
  cases hu : pyTruthyOptStr url <;> cases hp : pyTruthyOptStr pageId <;> simp

-- ## Claim C3

/-- C3: when the resolved reference's path holds an `attachments` segment
followed by at least two further segments, the local name is the segment
after `attachments`, an underscore, and the URL-decoded next segment with
spaces replaced by underscores; in saving mode the emitted Markdown image
points at that local name and exactly one (resolved reference, local name)
pair is appended to the pending downloads. -/
theorem claim3_attachment_naming (ctx : Ctx) (src alt pid path : Str)
    (hpid : ctx.currentPageId = some pid) (hpidne : pid ≠ [])
    (hdir : ctx.hasOutputDir = true)
    (haltne : alt ≠ [])
    (hsrc : src ≠ []) (hhttp : (str "http").isPrefixOf src = false)
    (hparse : urlparsePathOpt (ctx.baseUrl ++ src) = some path)
    (hmem : (str "attachments") ∈ splitOnChar '/' path)
    (hidx : listIdxOf (str "attachments") (splitOnChar '/' path) + 2 <
      (splitOnChar '/' path).length) :
    convertImage ctx (Node.elem (str "img") [(str "src", src), (str "alt", alt)] [] []) =
      (str "![" ++ alt ++ str "](" ++
         ((splitOnChar '/' path).getD
            (listIdxOf (str "attachments") (splitOnChar '/' path) + 1) [] ++
          ['_'] ++ spacesToUnderscores (unquote
            ((splitOnChar '/' path).getD
              (listIdxOf (str "attachments") (splitOnChar '/' path) + 2) []))) ++
         str ")",
       [(ctx.baseUrl ++ src,
         (splitOnChar '/' path).getD
            (listIdxOf (str "attachments") (splitOnChar '/' path) + 1) [] ++
          ['_'] ++ spacesToUnderscores (unquote
            ((splitOnChar '/' path).getD
              (listIdxOf (str "attachments") (splitOnChar '/' path) + 2) [])))]) := by
  have hname : generateLocalImageName (ctx.baseUrl ++ src) pid =
      (splitOnChar '/' path).getD
        (listIdxOf (str "attachments") (splitOnChar '/' path) + 1) [] ++
      ['_'] ++ spacesToUnderscores (unquote
        ((splitOnChar '/' path).getD
          (listIdxOf (str "attachments") (splitOnChar '/' path) + 2) [])) := by
    have hc : (splitOnChar '/' path).contains (str "attachments") = true := by
      simpa using hmem
    simp only [generateLocalImageName, hparse]
    rw [if_pos ⟨hc, hidx⟩]
  have gds : getAttr (Node.elem (str "img") [(str "src", src), (str "alt", alt)] [] [])
      (str "data-image-src") = [] := rfl
  have gsrc : getAttr (Node.elem (str "img") [(str "src", src), (str "alt", alt)] [] [])
      (str "src") = src := rfl
  have galt : getAttr (Node.elem (str "img") [(str "src", src), (str "alt", alt)] [] [])
      (str "alt") = alt := rfl
  have gtitle : getAttr (Node.elem (str "img") [(str "src", src), (str "alt", alt)] [] [])
      (str "data-linked-resource-default-alias") = [] := rfl
  have hsrcb : (src != []) = true := by simp [hsrc]
  have haltb : (alt != []) = true := by simp [haltne]
  have hpidb : (pid != []) = true := by simp [hpidne]
  simp only [convertImage, gds, gsrc, galt, gtitle, hsrcb, haltb, hhttp, hpid,
    hdir, bne_self_eq_false, Bool.false_eq_true, if_false, Bool.not_false,
    Bool.and_true, if_true, pyTruthyOptStr, Option.getD_some, hpidb, hname]

/-- Witness for C3: end-to-end scenario C. -/
theorem claim3_witness :
    urlparsePathOpt (str "https://wiki.p1.cn/download/attachments/555/photo 1.png") =
      some (str "/download/attachments/555/photo 1.png") ∧
    (str "attachments") ∈ splitOnChar '/' (str "/download/attachments/555/photo 1.png") ∧
    listIdxOf (str "attachments")
        (splitOnChar '/' (str "/download/attachments/555/photo 1.png")) + 2 <
      (splitOnChar '/' (str "/download/attachments/555/photo 1.png")).length ∧
    convertImage ⟨str "https://wiki.p1.cn", some (str "999"), true⟩
        (Node.elem (str "img")
          [(str "src", str "/download/attachments/555/photo 1.png"),
           (str "alt", str "image")] [] []) =
      (str "![image](555_photo_1.png)",
       [(str "https://wiki.p1.cn/download/attachments/555/photo 1.png",
         str "555_photo_1.png")]) :=
  ⟨rfl, by decide, by decide,
   (claim3_attachment_naming ⟨str "https://wiki.p1.cn", some (str "999"), true⟩
      (str "/download/attachments/555/photo 1.png") (str "image") (str "999")
      (str "/download/attachments/555/photo 1.png") rfl (by decide) rfl
      (by decide) (by decide) (by decide) rfl (by decide) (by decide)).trans
    (by decide)⟩

-- ## Claim C10

/-- C10: when the parsed path holds an `attachments` segment with fewer than
two following segments, the derivation falls through to the final-segment
rule (page id, underscore, decoded final segment, `.png` appended when the
decoded segment has no dot) rather than the generic fallback; the generic
generic page-id_image.png fallback arises exactly from a parse failure. -/
theorem claim10_attachments_short_fallthrough (url1 url2 pid path : Str)
    (h1 : urlparsePathOpt url1 = some path)
    (_h2 : (str "attachments") ∈ splitOnChar '/' path)
    (h3 : ¬ (listIdxOf (str "attachments") (splitOnChar '/' path) + 2 <
      (splitOnChar '/' path).length))
    (h4 : urlparsePathOpt url2 = none) :
    generateLocalImageName url1 pid =
      (if (spacesToUnderscores (unquote ((splitOnChar '/' path).getLastD []))).contains '.' then
        pid ++ ['_'] ++ spacesToUnderscores (unquote ((splitOnChar '/' path).getLastD []))
      else
        pid ++ ['_'] ++ spacesToUnderscores (unquote ((splitOnChar '/' path).getLastD [])) ++
          str ".png") ∧
    generateLocalImageName url2 pid = pid ++ str "_image.png" := by
  constructor
  · simp only [generateLocalImageName, h1]
    rw [if_neg (fun hand => h3 hand.2)]
  · simp only [generateLocalImageName, h4]

/-- Witness for C10: an `attachments` segment followed by a single segment
falls through to the final-segment rule; an unparsable reference yields the
generic fallback. -/
theorem claim10_witness :
    urlparsePathOpt (str "https://wiki.p1.cn/download/attachments/555") =
      some (str "/download/attachments/555") ∧
    (str "attachments") ∈ splitOnChar '/' (str "/download/attachments/555") ∧
    ¬ (listIdxOf (str "attachments") (splitOnChar '/' (str "/download/attachments/555")) + 2 <
      (splitOnChar '/' (str "/download/attachments/555")).length) ∧
    urlparsePathOpt (str "http://[") = none ∧
    generateLocalImageName (str "https://wiki.p1.cn/download/attachments/555")
        (str "999") = str "999_555.png" ∧
    generateLocalImageName (str "http://[") (str "999") = str "999_image.png" :=
  ⟨rfl, by decide, by decide, rfl,
   ((claim10_attachments_short_fallthrough
       (str "https://wiki.p1.cn/download/attachments/555") (str "http://[")
       (str "999") (str "/download/attachments/555") rfl (by decide) (by decide)
       rfl).1).trans (by decide),
   ((claim10_attachments_short_fallthrough
       (str "https://wiki.p1.cn/download/attachments/555") (str "http://[")
       (str "999") (str "/download/attachments/555") rfl (by decide) (by decide)
       rfl).2).trans (by decide)⟩

-- ## Claim C8

/-- The per-item content loop shared verbatim by `_convert_unordered_list`
and `_convert_ordered_list`: direct text children pass through, nested lists
recurse on a fresh line at `level + 1`, and any other child goes through the
single-element dispatch. -/
def listItemContent (fuel : Nat) (ctx : Ctx) (level : Nat) (li : Node) : Str :=
  (li.children.map (fun c =>
    match c with
    | .text s => s
    | .elem _ _ _ _ =>
      let ct := c.tagLower
      if ct == str "ul" then str "\n" ++ convertUnorderedList fuel ctx (level+1) c
      else if ct == str "ol" then str "\n" ++ convertOrderedList fuel ctx (level+1) c
      else convertSingleElement fuel ctx c)).flatten

/-- Sequential numbering of already-rendered items: counting up from `i`,
each item is emitted as `indent ++ str(counter) ++ ". " ++ item ++ "\n"`. -/
def numberItems (indent : Str) (i : Nat) : List Str → Str
  | [] => []
  | t :: rest =>
    indent ++ natToStr i ++ str ". " ++ t ++ str "\n" ++ numberItems indent (i+1) rest

theorem ordered_fold (fuel : Nat) (ctx : Ctx) (level : Nat) :
    ∀ (cs : List Node) (acc : Str) (i : Nat),
      (cs.foldl (fun (st : Str × Nat) li =>
        if isTag li (str "li") then
          (st.1 ++ reptStr level (str "  ") ++ natToStr st.2 ++ str ". " ++
            pyStrip (listItemContent fuel ctx level li) ++ str "\n", st.2 + 1)
        else st) (acc, i)).1 =
      acc ++ numberItems (reptStr level (str "  ")) i
        ((cs.filter (fun li => isTag li (str "li"))).map
          (fun li => pyStrip (listItemContent fuel ctx level li))) := by
  intro cs
  induction cs with
  | nil => intro acc i; simp [numberItems]
  | cons c cs ih =>
    intro acc i
    by_cases hc : isTag c (str "li") = true
    · simp only [List.foldl_cons, hc, if_true, List.filter_cons, List.map_cons]
      rw [ih]
      simp [numberItems, List.append_assoc]
    · have hc2 : isTag c (str "li") = false := by
        simpa using hc
      simp only [List.foldl_cons, hc2, Bool.false_eq_true, if_false,
        List.filter_cons, ih]

theorem convertOrderedList_numbering (fuel : Nat) (ctx : Ctx) (level : Nat)
    (el : Node) :
    convertOrderedList (fuel + 1) ctx level el =
      numberItems (reptStr level (str "  ")) 1
        ((el.children.filter (fun li => isTag li (str "li"))).map
          (fun li => pyStrip (listItemContent fuel ctx level li))) ++
      (if level == 0 then str "\n" else []) := by
  have e : convertOrderedList (fuel + 1) ctx level el =
      (el.children.foldl (fun (st : Str × Nat) li =>
        if isTag li (str "li") then
          (st.1 ++ reptStr level (str "  ") ++ natToStr st.2 ++ str ". " ++
            pyStrip (listItemContent fuel ctx level li) ++ str "\n", st.2 + 1)
        else st) ([], 1)).1 ++ (if level == 0 then str "\n" else []) := rfl
  rw [e, ordered_fold fuel ctx level el.children [] 1, List.nil_append]

/-- C8: ordered-list numbering starts at 1 and increments once per `li`
child (non-`li` children are skipped without advancing the counter); each
item at nesting level L is prefixed by two spaces per level and the counter
value followed by a dot and a space;
and a nested ordered list inside an item is rendered by a recursive call at
level + 1 whose own numbering again starts at 1. -/
theorem claim8_ordered_list_numbering (fuel : Nat) (ctx : Ctx) (level : Nat)
    (el : Node) (ns : List Node) :
    convertOrderedList (fuel + 1) ctx level el =
      numberItems (reptStr level (str "  ")) 1
        ((el.children.filter (fun li => isTag li (str "li"))).map
          (fun li => pyStrip (listItemContent fuel ctx level li))) ++
      (if level == 0 then str "\n" else []) ∧
    listItemContent (fuel + 1) ctx level
        (Node.elem (str "li") [] [] [Node.elem (str "ol") [] [] ns]) =
      str "\n" ++
      (numberItems (reptStr (level + 1) (str "  ")) 1
        ((ns.filter (fun li => isTag li (str "li"))).map
          (fun li => pyStrip (listItemContent fuel ctx (level + 1) li))) ++
       (if level + 1 == 0 then str "\n" else [])) := by
  constructor
  · exact convertOrderedList_numbering fuel ctx level el
  · have e : listItemContent (fuel + 1) ctx level
        (Node.elem (str "li") [] [] [Node.elem (str "ol") [] [] ns]) =
        (str "\n" ++ convertOrderedList (fuel + 1) ctx (level + 1)
          (Node.elem (str "ol") [] [] ns)) ++ [] := rfl
    rw [e, List.append_nil, convertOrderedList_numbering fuel ctx (level + 1)
      (Node.elem (str "ol") [] [] ns)]
    simp [Node.children]

-- ## Claim C4

-- Test fixtures: the canonical comment markup of the wiki export.
def mkComment (author time : Str) (body : List Node) : Node :=
  Node.elem (str "div") [] [str "comment"]
    [Node.elem (str "div") [] [str "comment-header"]
       [Node.elem (str "span") [] [str "author"]
          [Node.elem (str "a") [] [] [Node.text author]]],
     Node.elem (str "div") [] [str "comment-content", str "wiki-content"] body,
     Node.elem (str "div") [] [str "comment-date"]
       [Node.elem (str "a") [] [] [Node.text time]]]

def mkThread (items : List Node) : Node :=
  Node.elem (str "div") [] [str "comment-thread"] items

def mkReplies (threads : List Node) : Node :=
  Node.elem (str "div") [] [str "comment-threads"] threads

def pNode (t : Str) : Node := Node.elem (str "p") [] [] [Node.text t]

theorem pyStrip_append_nn (t : Str) : pyStrip (t ++ str "\n\n") = pyStrip t := by
  rw [show str "\n\n" = ['\n', '\n'] from rfl]
  unfold pyStrip pyLstrip pyRstrip
  rw [show (t ++ ['\n', '\n']).reverse = '\n' :: '\n' :: t.reverse by
    simp [List.reverse_append]]
  rfl

theorem pyStrip_newline : pyStrip (str "\n") = [] := rfl

theorem bodyRender (fuel : Nat) (ctx : Ctx) (t : Str) :
    pyStrip (convertElement (fuel + 3) ctx
      (Node.elem (str "div") [] [str "comment-content", str "wiki-content"] [pNode t])) =
    if pyStrip t = [] then [] else pyStrip t := by
  have e : convertElement (fuel + 3) ctx
      (Node.elem (str "div") [] [str "comment-content", str "wiki-content"] [pNode t]) =
      (if pyStrip (t ++ []) == [] then str "\n" else (t ++ []) ++ str "\n\n") ++ [] := rfl
  rw [e]
  simp only [List.append_nil]
  by_cases h : pyStrip t = []
  · simp [h, pyStrip_newline]
  · simp [h, pyStrip_append_nn]

set_option maxHeartbeats 1000000

/-- C4: for each direct comment child of a thread at depth d whose rendered
body is non-empty, the extractor emits a header line
made of the quote prefix (the two-character quote marker repeated d+1
times), the bold author label and the parenthesised timestamp with a
trailing colon, then every body line behind the same quote prefix, then one
blank separator line; a comment with an
empty rendered body contributes nothing; and a nested replies container is
processed at depth d + 1, so a root comment is quoted with `> ` and its
direct reply with `> > `. -/
theorem claim4_comment_thread_extraction (fuel : Nat) (ctx : Ctx) (level : Nat)
    (a1 ts1 t1 a2 ts2 t2 : Str) :
    extractCommentsFromThread (fuel + 5) ctx
        (mkThread [mkComment a1 ts1 [pNode t1],
                   mkReplies [mkThread [mkComment a2 ts2 [pNode t2]]]]) level =
      (if pyStrip t1 = [] then []
       else [reptStr (level + 1) (str "> ") ++ str "**" ++ a1 ++ str "** (" ++
               ts1 ++ str "):"] ++
         (splitOnChar '\n' (pyStrip t1)).map
           (fun l => reptStr (level + 1) (str "> ") ++ l) ++ [[]]) ++
      (if pyStrip t2 = [] then []
       else [reptStr (level + 2) (str "> ") ++ str "**" ++ a2 ++ str "** (" ++
               ts2 ++ str "):"] ++
         (splitOnChar '\n' (pyStrip t2)).map
           (fun l => reptStr (level + 2) (str "> ") ++ l) ++ [[]]) := by
  have hasClass_elem : ∀ (t : Str) (attrs : List (Str × Str)) (cls : List Str)
      (ch : List Node) (c : Str),
      (Node.elem t attrs cls ch).hasClass c = cls.contains c := fun _ _ _ _ _ => rfl
  have k1 : ([str "comment"] : List Str).contains (str "comment") = true := rfl
  have k2 : ([str "comment-threads"] : List Str).contains (str "comment") = false := rfl
  have k3 : ([str "comment-threads"] : List Str).contains (str "comment-threads") = true := rfl
  have k4 : ([str "comment-thread"] : List Str).contains (str "comment-thread") = true := rfl
  have hA1 : (selectFirstChain
      [fun n => n.hasClass (str "comment-header"),
       fun n => n.hasClass (str "author")]
      (fun n => isTag n (str "a")) (Node.elem (str "div") [] [str "comment"] [Node.elem (str "div") [] [str "comment-header"] [Node.elem (str "span") [] [str "author"] [Node.elem (str "a") [] [] [Node.text a1]]], Node.elem (str "div") [] [str "comment-content", str "wiki-content"] [Node.elem (str "p") [] [] [Node.text t1]], Node.elem (str "div") [] [str "comment-date"] [Node.elem (str "a") [] [] [Node.text ts1]]])) =
      some (Node.elem (str "a") [] [] [Node.text a1]) := rfl
  have hA2 : (selectFirstChain
      [fun n => n.hasClass (str "comment-header"),
       fun n => n.hasClass (str "author")]
      (fun n => isTag n (str "a")) (Node.elem (str "div") [] [str "comment"] [Node.elem (str "div") [] [str "comment-header"] [Node.elem (str "span") [] [str "author"] [Node.elem (str "a") [] [] [Node.text a2]]], Node.elem (str "div") [] [str "comment-content", str "wiki-content"] [Node.elem (str "p") [] [] [Node.text t2]], Node.elem (str "div") [] [str "comment-date"] [Node.elem (str "a") [] [] [Node.text ts2]]])) =
      some (Node.elem (str "a") [] [] [Node.text a2]) := rfl
  have hC1 : (selectFirstSimple
      (fun n => n.hasClass (str "comment-content") &&
        n.hasClass (str "wiki-content")) (Node.elem (str "div") [] [str "comment"] [Node.elem (str "div") [] [str "comment-header"] [Node.elem (str "span") [] [str "author"] [Node.elem (str "a") [] [] [Node.text a1]]], Node.elem (str "div") [] [str "comment-content", str "wiki-content"] [Node.elem (str "p") [] [] [Node.text t1]], Node.elem (str "div") [] [str "comment-date"] [Node.elem (str "a") [] [] [Node.text ts1]]])) =
      some (Node.elem (str "div") [] [str "comment-content", str "wiki-content"] [Node.elem (str "p") [] [] [Node.text t1]]) := rfl
  have hC2 : (selectFirstSimple
      (fun n => n.hasClass (str "comment-content") &&
        n.hasClass (str "wiki-content")) (Node.elem (str "div") [] [str "comment"] [Node.elem (str "div") [] [str "comment-header"] [Node.elem (str "span") [] [str "author"] [Node.elem (str "a") [] [] [Node.text a2]]], Node.elem (str "div") [] [str "comment-content", str "wiki-content"] [Node.elem (str "p") [] [] [Node.text t2]], Node.elem (str "div") [] [str "comment-date"] [Node.elem (str "a") [] [] [Node.text ts2]]])) =
      some (Node.elem (str "div") [] [str "comment-content", str "wiki-content"] [Node.elem (str "p") [] [] [Node.text t2]]) := rfl
  have hT1 : (selectFirstChain [fun n => n.hasClass (str "comment-date")]
      (fun n => isTag n (str "a")) (Node.elem (str "div") [] [str "comment"] [Node.elem (str "div") [] [str "comment-header"] [Node.elem (str "span") [] [str "author"] [Node.elem (str "a") [] [] [Node.text a1]]], Node.elem (str "div") [] [str "comment-content", str "wiki-content"] [Node.elem (str "p") [] [] [Node.text t1]], Node.elem (str "div") [] [str "comment-date"] [Node.elem (str "a") [] [] [Node.text ts1]]])) =
      some (Node.elem (str "a") [] [] [Node.text ts1]) := rfl
  have hT2 : (selectFirstChain [fun n => n.hasClass (str "comment-date")]
      (fun n => isTag n (str "a")) (Node.elem (str "div") [] [str "comment"] [Node.elem (str "div") [] [str "comment-header"] [Node.elem (str "span") [] [str "author"] [Node.elem (str "a") [] [] [Node.text a2]]], Node.elem (str "div") [] [str "comment-content", str "wiki-content"] [Node.elem (str "p") [] [] [Node.text t2]], Node.elem (str "div") [] [str "comment-date"] [Node.elem (str "a") [] [] [Node.text ts2]]])) =
      some (Node.elem (str "a") [] [] [Node.text ts2]) := rfl
  have hb1 : pyStrip (convertElement (fuel + 4) ctx (Node.elem (str "div") [] [str "comment-content", str "wiki-content"] [Node.elem (str "p") [] [] [Node.text t1]])) =
      if pyStrip t1 = [] then [] else pyStrip t1 := bodyRender (fuel + 1) ctx t1
  have hb2 : pyStrip (convertElement (fuel + 3) ctx (Node.elem (str "div") [] [str "comment-content", str "wiki-content"] [Node.elem (str "p") [] [] [Node.text t2]])) =
      if pyStrip t2 = [] then [] else pyStrip t2 := bodyRender fuel ctx t2
  have ga1 : getTextN (Node.elem (str "a") [] [] [Node.text a1]) = a1 ++ [] := rfl
  have ga2 : getTextN (Node.elem (str "a") [] [] [Node.text a2]) = a2 ++ [] := rfl
  have gt1 : getTextN (Node.elem (str "a") [] [] [Node.text ts1]) = ts1 ++ [] := rfl
  have gt2 : getTextN (Node.elem (str "a") [] [] [Node.text ts2]) = ts2 ++ [] := rfl
  simp only [extractCommentsFromThread, mkThread, mkReplies, mkComment, pNode,
    Node.children, List.map_cons, List.map_nil, List.flatten_cons,
    List.flatten_nil, List.filterMap_cons, List.filterMap_nil,
    hasClass_elem, k1, k2, k3, k4, hA1, hA2, hC1, hC2, hT1, hT2,
    hb1, hb2, ga1, ga2, gt1, gt2, List.append_nil,
    if_true, if_false, Bool.false_eq_true, Bool.true_eq_false]
  by_cases h1 : pyStrip t1 = [] <;> by_cases h2 : pyStrip t2 = [] <;>
    simp [h1, h2]

-- ## Claim C2 machinery

/-- Structural induction over the nested node tree. -/
theorem nodeInd (P : Node → Prop)
    (ht : ∀ s, P (.text s))
    (he : ∀ t a c ch, (∀ m ∈ ch, P m) → P (.elem t a c ch)) : ∀ n, P n :=
  fun n =>
    @Node.rec P (fun ns => ∀ m ∈ ns, P m)
      ht
      (fun t a c ch ih => he t a c ch ih)
      (fun m hm => absurd hm (List.not_mem_nil m))
      (fun _ _ ihx ihxs m hm =>
        Or.elim (List.mem_cons.mp hm) (fun h => h ▸ ihx) (fun h => ihxs m h))
      n

theorem mem_entriesList (a0 : List Node) (ns : List Node) (p : List Node × Node) :
    p ∈ entriesList a0 ns ↔ ∃ n ∈ ns, p ∈ entriesNode a0 n := by
  induction ns with
  | nil => simp [entriesList]
  | cons x xs ih => simp [entriesList, List.mem_append, ih]

theorem entriesNode_shift : ∀ (n : Node) (a0 anc : List Node) (d : Node),
    ((anc, d) ∈ entriesNode a0 n) ↔
      ∃ rel, anc = a0 ++ rel ∧ ((rel, d) ∈ entriesNode [] n) := by
  refine nodeInd (fun n => ∀ (a0 anc : List Node) (d : Node),
    (((anc, d) ∈ entriesNode a0 n) ↔
      ∃ rel, anc = a0 ++ rel ∧ ((rel, d) ∈ entriesNode [] n))) ?_ ?_
  · intro s a0 anc d
    simp only [entriesNode, List.mem_singleton, Prod.ext_iff]
    constructor
    · rintro ⟨h1, h2⟩
      exact ⟨[], by simp [h1], by simp [h2]⟩
    · rintro ⟨rel, h1, h2, h3⟩
      subst h2
      simp only [List.append_nil] at h1
      exact ⟨h1, h3⟩
  · intro t a c ch IH a0 anc d
    constructor
    · intro hm
      simp only [entriesNode] at hm
      rcases List.mem_cons.mp hm with h | h
      · obtain ⟨h1, h2⟩ := Prod.mk.injEq .. |>.mp h
        refine ⟨[], by simp [h1], ?_⟩
        simp only [entriesNode]
        rw [h2]
        exact List.mem_cons_self _ _
      · rw [mem_entriesList] at h
        obtain ⟨m, hmem, hin⟩ := h
        rw [IH m hmem] at hin
        obtain ⟨rel1, hanc, hrel⟩ := hin
        refine ⟨Node.elem t a c ch :: rel1, by simp [hanc], ?_⟩
        simp only [entriesNode]
        apply List.mem_cons_of_mem
        rw [mem_entriesList]
        refine ⟨m, hmem, ?_⟩
        rw [IH m hmem]
        exact ⟨rel1, rfl, hrel⟩
    · rintro ⟨rel, hanc, hrel⟩
      simp only [entriesNode] at hrel
      rcases List.mem_cons.mp hrel with h | h
      · obtain ⟨h1, h2⟩ := Prod.mk.injEq .. |>.mp h
        simp only [entriesNode]
        apply List.mem_cons.mpr
        left
        rw [Prod.ext_iff]
        constructor
        · simp [hanc, h1]
        · exact h2
      · rw [mem_entriesList] at h
        obtain ⟨m, hmem, hin⟩ := h
        rw [IH m hmem] at hin
        obtain ⟨rel2, hrel2, hrel3⟩ := hin
        simp only [entriesNode]
        apply List.mem_cons_of_mem
        rw [mem_entriesList]
        refine ⟨m, hmem, ?_⟩
        rw [IH m hmem]
        refine ⟨rel2, ?_, hrel3⟩
        rw [hanc, hrel2]
        simp

theorem chain_forward : ∀ (n : Node) (a0 anc : List Node) (d c : Node),
    (anc, d) ∈ entriesNode a0 n → c ∈ anc →
    c ∈ a0 ∨ ((∃ anc1, (anc1, c) ∈ entriesNode a0 n) ∧
      ∃ anc2, (anc2, d) ∈ entriesList [] c.children) := by
  refine nodeInd (fun n => ∀ (a0 anc : List Node) (d c : Node),
    (anc, d) ∈ entriesNode a0 n → c ∈ anc →
    c ∈ a0 ∨ ((∃ anc1, (anc1, c) ∈ entriesNode a0 n) ∧
      ∃ anc2, (anc2, d) ∈ entriesList [] c.children)) ?_ ?_
  · intro s a0 anc d c hm hc
    simp only [entriesNode, List.mem_singleton, Prod.ext_iff] at hm
    exact Or.inl (hm.1 ▸ hc)
  · intro t a cls ch IH a0 anc d c hm hc
    simp only [entriesNode] at hm
    rcases List.mem_cons.mp hm with h | h
    · obtain ⟨h1, _⟩ := Prod.mk.injEq .. |>.mp h
      exact Or.inl (h1 ▸ hc)
    · rw [mem_entriesList] at h
      obtain ⟨m, hmem, hin⟩ := h
      rcases IH m hmem (a0 ++ [Node.elem t a cls ch]) anc d c hin hc with hl | hr
      · rcases List.mem_append.mp hl with h0 | h1
        · exact Or.inl h0
        · -- c = the elem node itself
          have hce : c = Node.elem t a cls ch := by simpa using h1
          refine Or.inr ⟨⟨a0, by simp [entriesNode, hce]⟩, ?_⟩
          have := (entriesNode_shift m (a0 ++ [Node.elem t a cls ch]) anc d).mp hin
          obtain ⟨rel, _, hrel⟩ := this
          refine ⟨rel, ?_⟩
          rw [hce]
          show (rel, d) ∈ entriesList [] ch
          rw [mem_entriesList]
          exact ⟨m, hmem, hrel⟩
      · obtain ⟨⟨anc1, h1⟩, h2⟩ := hr
        refine Or.inr ⟨⟨anc1, ?_⟩, h2⟩
        simp only [entriesNode]
        apply List.mem_cons_of_mem
        rw [mem_entriesList]
        exact ⟨m, hmem, h1⟩

theorem chain_backward : ∀ (n : Node) (a0 anc1 : List Node) (c : Node),
    (anc1, c) ∈ entriesNode a0 n →
    ∀ (anc2 : List Node) (d : Node), (anc2, d) ∈ entriesList [] c.children →
    ∃ anc3, (anc3, d) ∈ entriesNode a0 n ∧ c ∈ anc3 := by
  refine nodeInd (fun n => ∀ (a0 anc1 : List Node) (c : Node),
    (anc1, c) ∈ entriesNode a0 n →
    ∀ (anc2 : List Node) (d : Node), (anc2, d) ∈ entriesList [] c.children →
    ∃ anc3, (anc3, d) ∈ entriesNode a0 n ∧ c ∈ anc3) ?_ ?_
  · intro s a0 anc1 c hm anc2 d hd
    simp only [entriesNode, List.mem_singleton, Prod.ext_iff] at hm
    rw [hm.2] at hd
    simp [Node.children, entriesList] at hd
  · intro t a cls ch IH a0 anc1 c hm anc2 d hd
    simp only [entriesNode] at hm
    rcases List.mem_cons.mp hm with h | h
    · obtain ⟨_, h2⟩ := Prod.mk.injEq .. |>.mp h
      subst h2
      simp only [Node.children] at hd
      refine ⟨(a0 ++ [Node.elem t a cls ch]) ++ anc2, ?_, by simp⟩
      simp only [entriesNode]
      apply List.mem_cons_of_mem
      rw [mem_entriesList] at hd ⊢
      obtain ⟨m, hmem, hin⟩ := hd
      refine ⟨m, hmem, ?_⟩
      rw [entriesNode_shift m (a0 ++ [Node.elem t a cls ch]) _ d]
      exact ⟨anc2, rfl, hin⟩
    · rw [mem_entriesList] at h
      obtain ⟨m, hmem, hin⟩ := h
      obtain ⟨anc3, h3, hc3⟩ := IH m hmem _ anc1 c hin anc2 d hd
      refine ⟨anc3, ?_, hc3⟩
      simp only [entriesNode]
      apply List.mem_cons_of_mem
      rw [mem_entriesList]
      exact ⟨m, hmem, h3⟩

theorem hasNestedTable_any (t : Node) :
    hasNestedTable t = (properEntries t).any
      (fun e => nestedTablePred e.2 && ancMatch [tableCellPred] e.1) := by
  unfold hasNestedTable selectChain
  generalize properEntries t = l
  induction l with
  | nil => rfl
  | cons x xs ih =>
    by_cases h : (nestedTablePred x.2 && ancMatch [tableCellPred] x.1) = true
    · simp [List.filter_cons, h, List.any_cons]
    · have h2 : (nestedTablePred x.2 && ancMatch [tableCellPred] x.1) = false := by
        simpa using h
      simp [List.filter_cons, h2, List.any_cons, ih]

theorem ancMatch_single (p : Node → Bool) (anc : List Node) :
    ancMatch [p] anc = anc.any p := by
  induction anc with
  | nil => rfl
  | cons a rest ih => simp [ancMatch, ih, List.any_cons]

/-- `d` is a proper descendant of the node `n`. -/
def ProperDescOf (d n : Node) : Prop := ∃ anc, (anc, d) ∈ properEntries n

/-- The predicate of the claim: some `table` element or table-wrapper element
occurs as a descendant inside some `td`/`th` cell of this table. -/
def NestedTableInsideCell (t : Node) : Prop :=
  ∃ c, ProperDescOf c t ∧ tableCellPred c = true ∧
    ∃ x, ProperDescOf x c ∧ nestedTablePred x = true

/-- The subtree-scoped nested-table test holds exactly when some table or
table-wrapper element occurs as a descendant inside some `td`/`th` cell of
the table itself — the decidable route to the claim predicate. -/
theorem hasNestedTable_iff_inside_cell (t : Node) :
    hasNestedTable t = true ↔ NestedTableInsideCell t := by
  rw [hasNestedTable_any, List.any_eq_true]
  constructor
  · rintro ⟨e, he, hp⟩
    rw [Bool.and_eq_true] at hp
    obtain ⟨hnest, hanc⟩ := hp
    rw [ancMatch_single, List.any_eq_true] at hanc
    obtain ⟨c, hc, hcell⟩ := hanc
    unfold properEntries at he
    rw [mem_entriesList] at he
    obtain ⟨m, hm, hin⟩ := he
    have hin2 : (e.1, e.2) ∈ entriesNode [] m := by simpa using hin
    rcases chain_forward m [] e.1 e.2 c hin2 hc with h0 | hr
    · simp at h0
    · obtain ⟨⟨anc1, h1⟩, ⟨anc2, h2⟩⟩ := hr
      refine ⟨c, ⟨anc1, ?_⟩, hcell, e.2, ⟨anc2, h2⟩, hnest⟩
      unfold properEntries
      rw [mem_entriesList]
      exact ⟨m, hm, h1⟩
  · rintro ⟨c, ⟨anc1, h1⟩, hcell, x, ⟨anc2, h2⟩, hnest⟩
    unfold properEntries at h1
    rw [mem_entriesList] at h1
    obtain ⟨m, hm, hin⟩ := h1
    obtain ⟨anc3, h3, hc3⟩ := chain_backward m [] anc1 c hin anc2 x h2
    refine ⟨(anc3, x), ?_, ?_⟩
    · unfold properEntries
      rw [mem_entriesList]
      exact ⟨m, hm, h3⟩
    · rw [Bool.and_eq_true]
      refine ⟨hnest, ?_⟩
      rw [ancMatch_single, List.any_eq_true]
      exact ⟨c, hc3, hcell⟩



/-- `_convert_table(element)` with the element's document context explicit:
the dispatch queries the nested-table selector with whole-document ancestry
(`docAnc` lists the table's document ancestors, outermost first) and then
delegates to the two renderers. -/
def convertTableDoc (docAnc : List Node) : Nat → Ctx → Node → Str
  | 0, _, _ => []
  | fuel+1, ctx, el =>
    if hasNestedTableDoc docAnc el then convertTableToHtml fuel ctx el
    else convertTableToMarkdown fuel ctx el

/-- The amended claim predicate: some table or table-wrapper element occurs
as a descendant of the table below a `td`/`th`, where the `td`/`th` may be
the table itself or any of its document ancestors, or a cell inside the
table. -/
def NestedTableInDocCell (docAnc : List Node) (t : Node) : Prop :=
  ∃ x, ProperDescOf x t ∧ nestedTablePred x = true ∧
    ((docAnc ++ [t]).any tableCellPred = true ∨
      ∃ c, ProperDescOf c t ∧ tableCellPred c = true ∧ ProperDescOf x c)

theorem hasNestedTableDoc_any (docAnc : List Node) (t : Node) :
    hasNestedTableDoc docAnc t = (properEntries t).any
      (fun e => nestedTablePred e.2 &&
        ancMatch [tableCellPred] (docAnc ++ t :: e.1)) := by
  unfold hasNestedTableDoc selectChainDoc
  generalize properEntries t = l
  induction l with
  | nil => rfl
  | cons x xs ih =>
    by_cases h : (nestedTablePred x.2 &&
        ancMatch [tableCellPred] (docAnc ++ t :: x.1)) = true
    · simp [List.filter_cons, h, List.any_cons]
    · have h2 : (nestedTablePred x.2 &&
          ancMatch [tableCellPred] (docAnc ++ t :: x.1)) = false := by
        simpa using h
      simp [List.filter_cons, h2, List.any_cons, ih]

-- Counterexample fixtures for C2: an inner table with a table-wrap-classed
-- row, sitting under a td of an outer table behind a plain div (the code
-- reaches it through the fallback-mode cell renderer and the plain-div
-- pass-through).
def c2InnerTable : Node :=
  Node.elem (str "table") [] []
    [Node.elem (str "tr") [] [str "table-wrap"]
      [Node.elem (str "td") [] [] [Node.text (str "x")]]]

def c2OuterTd : Node :=
  Node.elem (str "td") [] [] [Node.elem (str "div") [] [] [c2InnerTable]]

def c2OuterTable : Node :=
  Node.elem (str "table") [] [] [Node.elem (str "tr") [] [] [c2OuterTd]]

/-- Document ancestors of `c2InnerTable`, outermost first. -/
def c2DocAnc : List Node :=
  [c2OuterTable, Node.elem (str "tr") [] [] [c2OuterTd], c2OuterTd,
   Node.elem (str "div") [] [] [c2InnerTable]]

/-- A cell-free ancestor chain for the witness. -/
def c2NoCellAnc : List Node := [Node.elem (str "div") [] [] [c2InnerTable]]

/-- C2 counterexample: for the inner table under a `td` of an outer table,
the selector with whole-document ancestry matches (the table-wrap-classed
row has the outer `td` as an ancestor), so `_convert_table` renders the
embedded-markup fallback; yet no table or table-wrapper element occurs
inside any `td`/`th` cell of the inner table itself, and the fallback
output differs from the flat form the claim requires there. -/
theorem claim2_counterexample :
    hasNestedTableDoc c2DocAnc c2InnerTable = true ∧
    convertTableDoc c2DocAnc 5 ⟨[], none, false⟩ c2InnerTable =
      convertTableToHtml 4 ⟨[], none, false⟩ c2InnerTable ∧
    ¬ NestedTableInsideCell c2InnerTable ∧
    convertTableToHtml 4 ⟨[], none, false⟩ c2InnerTable ≠
      convertTableToMarkdown 4 ⟨[], none, false⟩ c2InnerTable := by
  refine ⟨by decide, by decide, ?_, by decide⟩
  intro h
  exact absurd ((hasNestedTable_iff_inside_cell c2InnerTable).mpr h) (by decide)

/-- C2 amended: `_convert_table` renders the embedded-markup fallback
exactly when the whole-document selector finds a table or table-wrapper
descendant of the table below a `td`/`th` — a cell of the table itself or a
`td`/`th` the table sits inside — and the flat form otherwise; for a table
with no `td`/`th` at or above it, the test coincides with the subtree
inside-its-own-cells rule of the original claim. -/
theorem claim2_amended_table_dispatch (docAnc : List Node) (fuel : Nat)
    (ctx : Ctx) (t : Node) :
    convertTableDoc docAnc (fuel + 1) ctx t =
      (if hasNestedTableDoc docAnc t then convertTableToHtml fuel ctx t
       else convertTableToMarkdown fuel ctx t) ∧
    (hasNestedTableDoc docAnc t = true ↔ NestedTableInDocCell docAnc t) ∧
    ((docAnc.any tableCellPred || tableCellPred t) = false →
      hasNestedTableDoc docAnc t = hasNestedTable t) := by
  refine ⟨rfl, ?_, ?_⟩
  · rw [hasNestedTableDoc_any, List.any_eq_true]
    constructor
    · rintro ⟨e, he, hp⟩
      rw [Bool.and_eq_true] at hp
      obtain ⟨hnest, hanc⟩ := hp
      rw [ancMatch_single, List.any_append, List.any_cons] at hanc
      refine ⟨e.2, ⟨e.1, he⟩, hnest, ?_⟩
      rw [Bool.or_eq_true, Bool.or_eq_true] at hanc
      rcases hanc with h0 | h1 | h2
      · left
        rw [List.any_append]
        simp [h0]
      · left
        rw [List.any_append, List.any_cons]
        simp [h1]
      · rw [List.any_eq_true] at h2
        obtain ⟨c, hc, hcell⟩ := h2
        right
        unfold properEntries at he
        rw [mem_entriesList] at he
        obtain ⟨m, hm, hin⟩ := he
        have hin2 : (e.1, e.2) ∈ entriesNode [] m := by simpa using hin
        rcases chain_forward m [] e.1 e.2 c hin2 hc with hx | hr
        · simp at hx
        · obtain ⟨⟨anc1, h1⟩, ⟨anc2, h2b⟩⟩ := hr
          refine ⟨c, ⟨anc1, ?_⟩, hcell, ⟨anc2, h2b⟩⟩
          unfold properEntries
          rw [mem_entriesList]
          exact ⟨m, hm, h1⟩
    · rintro ⟨x, ⟨ancx, hx⟩, hnest, hdisj⟩
      rcases hdisj with h0 | ⟨c, ⟨anc1, h1⟩, hcell, ⟨anc2, h2⟩⟩
      · refine ⟨(ancx, x), hx, ?_⟩
        rw [Bool.and_eq_true]
        refine ⟨hnest, ?_⟩
        rw [ancMatch_single, List.any_append, List.any_cons]
        rw [List.any_append, List.any_cons, List.any_nil] at h0
        simp only [Bool.or_false, Bool.or_eq_true] at h0
        rcases h0 with ha | hb
        · simp [ha]
        · simp [hb]
      · unfold properEntries at h1
        rw [mem_entriesList] at h1
        obtain ⟨m, hm, hin⟩ := h1
        obtain ⟨anc3, h3, hc3⟩ := chain_backward m [] anc1 c hin anc2 x h2
        refine ⟨(anc3, x), ?_, ?_⟩
        · unfold properEntries
          rw [mem_entriesList]
          exact ⟨m, hm, h3⟩
        · rw [Bool.and_eq_true]
          refine ⟨hnest, ?_⟩
          rw [ancMatch_single, List.any_append, List.any_cons]
          have h4 : anc3.any tableCellPred = true := by
            rw [List.any_eq_true]
            exact ⟨c, hc3, hcell⟩
          simp [h4]
  · intro h
    have hcells : docAnc.any tableCellPred = false ∧ tableCellPred t = false := by
      simpa using h
    have hb : ∀ (b c : Bool), (b = true ↔ c = true) → b = c := by decide
    apply hb
    rw [hasNestedTableDoc_any, hasNestedTable_any, List.any_eq_true,
      List.any_eq_true]
    constructor
    · rintro ⟨e, he, hp⟩
      rw [Bool.and_eq_true] at hp
      obtain ⟨hnest, hanc⟩ := hp
      refine ⟨e, he, ?_⟩
      rw [Bool.and_eq_true]
      refine ⟨hnest, ?_⟩
      rw [ancMatch_single, List.any_append, List.any_cons, hcells.1,
        hcells.2] at hanc
      rw [ancMatch_single]
      simpa using hanc
    · rintro ⟨e, he, hp⟩
      rw [Bool.and_eq_true] at hp
      obtain ⟨hnest, hanc⟩ := hp
      refine ⟨e, he, ?_⟩
      rw [Bool.and_eq_true]
      refine ⟨hnest, ?_⟩
      rw [ancMatch_single] at hanc
      rw [ancMatch_single, List.any_append, List.any_cons, hcells.1,
        hcells.2]
      simpa using hanc

/-- Witness for the amended C2: a cell-free ancestor chain where the
document test provably coincides with the subtree test, and the dispatch
equation at the counterexample context. -/
theorem claim2_witness :
    (c2NoCellAnc.any tableCellPred || tableCellPred c2InnerTable) = false ∧
    hasNestedTableDoc c2NoCellAnc c2InnerTable = hasNestedTable c2InnerTable ∧
    convertTableDoc c2DocAnc 5 ⟨[], none, false⟩ c2InnerTable =
      (if hasNestedTableDoc c2DocAnc c2InnerTable
       then convertTableToHtml 4 ⟨[], none, false⟩ c2InnerTable
       else convertTableToMarkdown 4 ⟨[], none, false⟩ c2InnerTable) :=
  ⟨by decide,
   (claim2_amended_table_dispatch c2NoCellAnc 4 ⟨[], none, false⟩
      c2InnerTable).2.2 (by decide),
   (claim2_amended_table_dispatch c2DocAnc 4 ⟨[], none, false⟩
      c2InnerTable).1⟩


-- ## Claim C5

/-- The cell texts of one table row as `_convert_table_to_markdown` computes
them: the stripped cell content with newlines replaced by a line-break
marker and pipes escaped, for each `th`/`td` child. -/
def rowCells (fuel : Nat) (ctx : Ctx) (tr : Node) : List Str :=
  tr.children.filterMap (fun c =>
    match c with
    | .text _ => none
    | .elem _ _ _ _ =>
      let tn := c.tagLower
      if tn == str "th" || tn == str "td" then
        some (replaceStr (str "|") (str "\\|")
          (replaceStr (str "\n") (str "<br>")
            (pyStrip (convertTableCellContent fuel ctx c))))
      else none)

/-- The flat-table output claimed for a table whose first extracted row has
no header cell: a synthesized header of empty placeholders matching the
first row's cell count, a dash separator of the same width, and every
extracted row — the first included, as an ordinary data row — padded or
truncated to that width. -/
def claimedFlatNoHeader (fuel : Nat) (ctx : Ctx) (el : Node) : Str :=
  let rows := (getDirectTableRows el).map (rowCells fuel ctx)
  let n := (rows.headD []).length
  str "| " ++ joinSep (str " | ") (List.replicate n []) ++ str " |\n" ++
  str "| " ++ joinSep (str " | ") (List.replicate n (str "---")) ++ str " |\n" ++
  ((rows.map (fun row =>
    str "| " ++
    joinSep (str " | ") ((row ++ List.replicate (n - row.length) ([] : Str)).take n) ++
    str " |\n")).flatten) ++
  str "\n"

/-- Counterexample fixture for C5: a flat table whose first extracted row has
no cell at all, followed by a row with one data cell. -/
def c5Table : Node :=
  Node.elem (str "table") [] []
    [Node.elem (str "tr") [] [] [],
     Node.elem (str "tr") [] [] [Node.elem (str "td") [] [] [Node.text (str "a")]]]

/-- C5 counterexample: `c5Table` is in flat mode and its first extracted row
contains no header-kind cell, yet the rendered output differs from the
claimed synthesized-header form: the zero-width synthesized header row is
falsy in Python, so the empty first row is popped off as the header instead
of being emitted as a data row. -/
theorem claim5_counterexample :
    hasNestedTable c5Table = false ∧
    (((getDirectTableRows c5Table).headD (Node.text [])).children.any
      (fun c => isTag c (str "th"))) = false ∧
    convertTableToMarkdown 3 ⟨[], none, false⟩ c5Table ≠
      claimedFlatNoHeader 2 ⟨[], none, false⟩ c5Table := by
  refine ⟨rfl, rfl, ?_⟩
  decide

theorem tmd_fold_tail (fuel : Nat) (ctx : Ctx) :
    ∀ (rs : List Node) (i : Nat) (st : List Str × Bool × List (List Str)),
      i ≠ 0 →
      ((List.enumFrom i rs).foldl
        (fun (st : List Str × Bool × List (List Str)) p =>
          let cells := rowCells fuel ctx p.2
          let isHeader := st.2.1 || p.2.children.any (fun c => isTag c (str "th"))
          if p.1 == 0 && isHeader then (cells, isHeader, st.2.2)
          else if p.1 == 0 then
            (List.replicate cells.length [], isHeader, st.2.2 ++ [cells])
          else (st.1, isHeader, st.2.2 ++ [cells])) st).1 = st.1 ∧
      ((List.enumFrom i rs).foldl
        (fun (st : List Str × Bool × List (List Str)) p =>
          let cells := rowCells fuel ctx p.2
          let isHeader := st.2.1 || p.2.children.any (fun c => isTag c (str "th"))
          if p.1 == 0 && isHeader then (cells, isHeader, st.2.2)
          else if p.1 == 0 then
            (List.replicate cells.length [], isHeader, st.2.2 ++ [cells])
          else (st.1, isHeader, st.2.2 ++ [cells])) st).2.2 =
        st.2.2 ++ rs.map (rowCells fuel ctx) := by
  intro rs
  induction rs with
  | nil => intro i st hi; simp [List.enumFrom]
  | cons r rs ih =>
    intro i st hi
    have hiz : (i == 0) = false := by simpa using hi
    simp only [List.enumFrom, List.foldl_cons, hiz, Bool.false_and,
      Bool.false_eq_true, if_false, List.map_cons]
    have := ih (i + 1) (st.1, st.2.1 || r.children.any (fun c => isTag c (str "th")),
      st.2.2 ++ [rowCells fuel ctx r]) (by omega)
    refine ⟨this.1, ?_⟩
    rw [this.2]
    simp

/-- C5 amended: for a flat-mode table whose first extracted row contains at
least one cell and no header-kind cell, the output synthesizes an empty
header whose width is the first row's cell count, emits the first row as an
ordinary data row, emits a dash separator of the same width, and pads or
truncates every data row to that width. -/
theorem claim5_amended_synthesized_header (fuel : Nat) (ctx : Ctx) (el : Node)
    (r0 : Node) (rest : List Node)
    (hrows : getDirectTableRows el = r0 :: rest)
    (hcells : rowCells fuel ctx r0 ≠ [])
    (hnoth : r0.children.any (fun c => isTag c (str "th")) = false) :
    convertTableToMarkdown (fuel + 1) ctx el = claimedFlatNoHeader fuel ctx el := by
  have e : convertTableToMarkdown (fuel + 1) ctx el =
      (let fin := (getDirectTableRows el).enum.foldl
          (fun (st : List Str × Bool × List (List Str)) p =>
            let cells := rowCells fuel ctx p.2
            let isHeader := st.2.1 || p.2.children.any (fun c => isTag c (str "th"))
            if p.1 == 0 && isHeader then (cells, isHeader, st.2.2)
            else if p.1 == 0 then
              (List.replicate cells.length [], isHeader, st.2.2 ++ [cells])
            else (st.1, isHeader, st.2.2 ++ [cells]))
          ([], false, []);
       if fin.1.isEmpty && fin.2.2.isEmpty then []
       else
         let headerRow := if fin.1.isEmpty then fin.2.2.headD [] else fin.1
         let rows := if fin.1.isEmpty then fin.2.2.tail else fin.2.2
         str "| " ++ joinSep (str " | ") headerRow ++ str " |\n" ++
         str "| " ++ joinSep (str " | ")
           (List.replicate headerRow.length (str "---")) ++ str " |\n" ++
         ((rows.map (fun row =>
           str "| " ++ joinSep (str " | ")
             ((row ++ List.replicate (headerRow.length - row.length)
               ([] : Str)).take headerRow.length) ++
           str " |\n")).flatten) ++
         str "\n") := rfl
  rw [e, hrows]
  rw [show ((r0 :: rest).enum) = (0, r0) :: List.enumFrom 1 rest from rfl]
  simp only [List.foldl_cons, beq_self_eq_true, hnoth, Bool.or_false,
    Bool.and_false, Bool.false_eq_true, if_false, if_true, Bool.true_and,
    List.nil_append]
  obtain ⟨hf1, hf2⟩ := tmd_fold_tail fuel ctx rest 1
    (List.replicate (rowCells fuel ctx r0).length [], false,
      [rowCells fuel ctx r0]) (by omega)
  simp only [hf1, hf2]
  have hne : (List.replicate (rowCells fuel ctx r0).length ([] : Str)).isEmpty
      = false := by
    rcases h : rowCells fuel ctx r0 with _ | ⟨c, cs⟩
    · exact absurd h hcells
    · simp [List.replicate]
  simp only [hne, Bool.false_and, Bool.false_eq_true, if_false,
    claimedFlatNoHeader, hrows, List.map_cons, List.headD_cons,
    List.length_replicate, List.singleton_append]

-- Witness fixtures for the amended C5: scenario-B-like table with a
-- headerless first row.
def c5FirstRow : Node :=
  Node.elem (str "tr") [] []
    [Node.elem (str "td") [] [] [Node.text (str "Ann")],
     Node.elem (str "td") [] [] [Node.text (str "3|0")]]

def c5SecondRow : Node :=
  Node.elem (str "tr") [] [] [Node.elem (str "td") [] [] [Node.text (str "x")]]

def c5FlatTable : Node := Node.elem (str "table") [] [] [c5FirstRow, c5SecondRow]

/-- Witness for the amended C5 at a concrete headerless two-row table. -/
theorem claim5_witness :
    getDirectTableRows c5FlatTable = [c5FirstRow, c5SecondRow] ∧
    rowCells 2 ⟨[], none, false⟩ c5FirstRow ≠ [] ∧
    c5FirstRow.children.any (fun c => isTag c (str "th")) = false ∧
    convertTableToMarkdown 3 ⟨[], none, false⟩ c5FlatTable =
      str "|  |  |\n| --- | --- |\n| Ann | 3\\|0 |\n| x |  |\n\n" :=
  ⟨rfl, by decide, rfl,
   (claim5_amended_synthesized_header 2 ⟨[], none, false⟩ c5FlatTable
      c5FirstRow [c5SecondRow] rfl (by decide) rfl).trans (by decide)⟩
